import Mathlib

/-!
Shallow embedding of the exam domain core of the SprintCode test-bank
application (TypeScript): the `Question`, `Exam` and `ExamResult` models, the
`ExamService` orchestration step that completes an exam, and the Gemini
response parsing of `GeminiAIService.parseQuestionsFromResponse`.

Modelling conventions:
* TypeScript numbers that hold counts or indices are `Int` (they may be
  negative or out of range); percentages are `ℚ`.  A JavaScript `NaN`
  percentage (produced by `0 / 0`) is modelled as `none : Option ℚ`: every
  `NaN >= c` comparison is false, which the grade function reflects.
* A `Date` is its millisecond timestamp (`Int`).  `toISOString` followed by
  `new Date(...)` restores the exact millisecond value, so the serialized
  form keeps the timestamp itself.
* Methods that `throw` are state-passing functions into `Except String`;
  the pre-state is untouched when an error is returned.
* `undefined` / absent optional fields are `none`.
-/

namespace SprintCode

/-- A JavaScript `Date`, modelled as its millisecond timestamp. -/
abbrev Millis := Int

/-- `Question` (src/client/src/models/Question.ts): id, text, options,
correct index, optional difficulty tag, optional recorded user answer. -/
structure Question where
  id : Int
  text : String
  options : List String
  correctIndex : Int
  difficulty : Option String
  userAnswer : Option Int
deriving DecidableEq, Repr

/-- The `Question` constructor: every field from the arguments, no recorded
answer.  No validation of `correctIndex` against `options.length`. -/
def Question.make (id : Int) (text : String) (options : List String)
    (correctIndex : Int) (difficulty : Option String) : Question :=
  ⟨id, text, options, correctIndex, difficulty, none⟩

/-- `setUserAnswer`: stores the index when `0 <= answerIndex < options.length`,
otherwise throws `Invalid answer index`.  On the error branch the question is
not updated (the TypeScript assignment happens only in the `then` branch). -/
def Question.setUserAnswer (q : Question) (answerIndex : Int) :
    Except String Question :=
  if 0 ≤ answerIndex ∧ answerIndex < q.options.length then
    .ok { q with userAnswer := some answerIndex }
  else
    .error "Invalid answer index"

/-- `isAnswered()`: true iff an answer is recorded. -/
def Question.isAnswered (q : Question) : Bool :=
  q.userAnswer.isSome

/-- `isCorrect()`: strict equality of the recorded answer with the correct
index; `undefined === x` is false for a number `x`. -/
def Question.isCorrect (q : Question) : Bool :=
  q.userAnswer == some q.correctIndex

/-- JavaScript array indexing `a[i]`: `none` models the `undefined` result
when `i` is negative or past the end. -/
def jsIndex (a : List String) (i : Int) : Option String :=
  if 0 ≤ i then a.get? i.toNat else none

/-- `getCorrectAnswer()`: `this._options[this._correctIndex]`, which in
JavaScript silently yields `undefined` out of range. -/
def Question.getCorrectAnswer (q : Question) : Option String :=
  jsIndex q.options q.correctIndex

/-- The plain record produced by `Question.toJSON`. -/
structure QuestionJSON where
  id : Int
  text : String
  options : List String
  correctIndex : Int
  difficulty : Option String
  userAnswer : Option Int
deriving DecidableEq, Repr

/-- `toJSON()`: all six fields, verbatim. -/
def Question.toJSON (q : Question) : QuestionJSON :=
  ⟨q.id, q.text, q.options, q.correctIndex, q.difficulty, q.userAnswer⟩

/-- `Question.fromJSON`: reconstruct through the constructor, then re-apply
`setUserAnswer` (and hence its validation) when a stored answer is present. -/
def Question.fromJSON (d : QuestionJSON) : Except String Question :=
  let q := Question.make d.id d.text d.options d.correctIndex d.difficulty
  match d.userAnswer with
  | none => .ok q
  | some i => q.setUserAnswer i

/-- A recorded answer, if present, is a valid index into the options list.
This is the invariant `setUserAnswer` establishes. -/
def Question.answerInRangeB (q : Question) : Bool :=
  match q.userAnswer with
  | none => true
  | some i => decide (0 ≤ i ∧ i < q.options.length)

/-- `Exam` (src, Exam.ts): title, question list, optional time limit in
minutes, optional start/end timestamps. -/
structure Exam where
  title : String
  questions : List Question
  timeLimit : Option Int
  startTime : Option Millis
  endTime : Option Millis
deriving DecidableEq, Repr

/-- The `Exam` constructor: unstarted, unended. -/
def Exam.make (title : String) (questions : List Question)
    (timeLimit : Option Int) : Exam :=
  ⟨title, questions, timeLimit, none, none⟩

/-- `totalQuestions` getter. -/
def Exam.totalQuestions (e : Exam) : Nat :=
  e.questions.length

/-- `start()`: stamps the current time (re-stamps if called again). -/
def Exam.start (e : Exam) (now : Millis) : Exam :=
  { e with startTime := some now }

/-- `end()`: stamps the current time (re-stamps if called again).  Named
`endExam` because `end` is a Lean keyword. -/
def Exam.endExam (e : Exam) (now : Millis) : Exam :=
  { e with endTime := some now }

/-- `getAnsweredCount()`: how many questions have a recorded answer. -/
def Exam.getAnsweredCount (e : Exam) : Nat :=
  (e.questions.filter Question.isAnswered).length

/-- `getProgressPercentage()`: `(answeredCount / totalQuestions) * 100` with
JavaScript number semantics.  When `totalQuestions` is zero the answered
count is zero as well, so the division is `0 / 0 = NaN`, modelled as
`none`; the source has no special case for this. -/
def Exam.getProgressPercentage (e : Exam) : Option ℚ :=
  if e.totalQuestions = 0 then none
  else some (((e.getAnsweredCount : ℚ) / (e.totalQuestions : ℚ)) * 100)

/-- `getElapsedTime(now)`: 0 before start, else
`Math.floor((endOrNow - start) / 1000)`. -/
def Exam.getElapsedTime (e : Exam) (now : Millis) : Int :=
  match e.startTime with
  | none => 0
  | some st => Int.fdiv (e.endTime.getD now - st) 1000

/-- `canSubmit()`: all questions answered. -/
def Exam.canSubmit (e : Exam) : Bool :=
  e.getAnsweredCount == e.totalQuestions

/-- The plain record produced by `Exam.toJSON`; the two timestamps are kept
as their millisecond values (`toISOString` is exact to the millisecond and
`new Date` restores it exactly). -/
structure ExamJSON where
  title : String
  questions : List QuestionJSON
  timeLimit : Option Int
  startTime : Option Millis
  endTime : Option Millis
deriving DecidableEq, Repr

/-- `Exam.toJSON()`. -/
def Exam.toJSON (e : Exam) : ExamJSON :=
  ⟨e.title, e.questions.map Question.toJSON, e.timeLimit, e.startTime, e.endTime⟩

/-- `Exam.fromJSON`: each question through `Question.fromJSON` (whose
validation failure propagates), then the optional timestamps. -/
def Exam.fromJSON (d : ExamJSON) : Except String Exam := do
  let qs ← d.questions.mapM Question.fromJSON
  pure ⟨d.title, qs, d.timeLimit, d.startTime, d.endTime⟩

/-- `ExamResult` (src, ExamResult.ts).  `percentage = none` is the `NaN`
produced when the exam has zero questions. -/
structure ExamResult where
  exam : Exam
  score : Nat
  percentage : Option ℚ
  grade : String
  correctCount : Nat
  incorrectCount : Nat
  completionTime : Int
deriving DecidableEq, Repr

/-- `calculateCorrectCount()`. -/
def calculateCorrectCount (e : Exam) : Nat :=
  (e.questions.filter Question.isCorrect).length

/-- `calculateGrade()`: the threshold chain on the stored percentage.  A
`NaN` percentage (`none`) fails every `>=` comparison and falls through to
`"F"`. -/
def calculateGrade (percentage : Option ℚ) : String :=
  match percentage with
  | none => "F"
  | some p =>
    if 90 ≤ p then "A"
    else if 80 ≤ p then "B"
    else if 70 ≤ p then "C"
    else if 60 ≤ p then "D"
    else "F"

/-- The `ExamResult` constructor: derives every stored field from the exam.
It has no guard on `totalQuestions = 0`: in that case the percentage is
`(0 / 0) * 100 = NaN` (`none`) and construction still completes. -/
def ExamResult.make (exam : Exam) (now : Millis) : ExamResult :=
  let correctCount := calculateCorrectCount exam
  let percentage : Option ℚ :=
    if exam.totalQuestions = 0 then none
    else some (((correctCount : ℚ) / (exam.totalQuestions : ℚ)) * 100)
  { exam := exam
    score := correctCount
    percentage := percentage
    grade := calculateGrade percentage
    correctCount := correctCount
    incorrectCount := exam.totalQuestions - correctCount
    completionTime := exam.getElapsedTime now }

/-!
The Gemini response parser, `GeminiAIService.parseQuestionsFromResponse`
(src/client/src/services/AIService.ts).  `JSON.parse` is a platform builtin,
modelled here by an executable JSON parser over a `Json` value type; its
error messages stand in for the engine-specific `SyntaxError` messages (the
code only forwards `parseError.message`, it never inspects it).
-/

/-- A parsed JSON value.  Numbers are exact rationals. -/
inductive Json where
  | null : Json
  | bool : Bool → Json
  | num : ℚ → Json
  | str : String → Json
  | arr : List Json → Json
  | obj : List (String × Json) → Json

/-- The JSON whitespace characters. -/
def isJsonWs (c : Char) : Bool :=
  c = ' ' ∨ c = '\t' ∨ c = '\n' ∨ c = '\r'

/-- Drop leading JSON whitespace. -/
def skipJsonWs (cs : List Char) : List Char :=
  cs.dropWhile isJsonWs

/-- Value of a hex digit. -/
def hexVal (c : Char) : Option Nat :=
  if '0' ≤ c ∧ c ≤ '9' then some (c.toNat - 48)
  else if 'a' ≤ c ∧ c ≤ 'f' then some (c.toNat - 87)
  else if 'A' ≤ c ∧ c ≤ 'F' then some (c.toNat - 55)
  else none

/-- The single-character JSON string escapes. -/
def escChar (c : Char) : Option Char :=
  if c = '"' then some '"'
  else if c = '\\' then some '\\'
  else if c = '/' then some '/'
  else if c = 'b' then some '\x08'
  else if c = 'f' then some '\x0c'
  else if c = 'n' then some '\n'
  else if c = 'r' then some '\r'
  else if c = 't' then some '\t'
  else none

/-- Body of a JSON string, after the opening quote; returns the decoded
characters and the remainder after the closing quote. -/
def parseJStringAux : Nat → List Char → Except String (List Char × List Char)
  | 0, _ => .error "Unexpected end of JSON input"
  | fuel + 1, cs =>
    match cs with
    | [] => .error "Unexpected end of JSON input"
    | '"' :: rest => .ok ([], rest)
    | '\\' :: 'u' :: h1 :: h2 :: h3 :: h4 :: rest =>
      match hexVal h1, hexVal h2, hexVal h3, hexVal h4 with
      | some a, some b, some c, some d =>
        match parseJStringAux fuel rest with
        | .ok (tail, rem) => .ok (Char.ofNat (((a * 16 + b) * 16 + c) * 16 + d) :: tail, rem)
        | .error e => .error e
      | _, _, _, _ => .error "Bad Unicode escape in JSON"
    | '\\' :: e :: rest =>
      match escChar e with
      | some c =>
        match parseJStringAux fuel rest with
        | .ok (tail, rem) => .ok (c :: tail, rem)
        | .error er => .error er
      | none => .error "Bad escaped character in JSON"
    | '\\' :: [] => .error "Unexpected end of JSON input"
    | c :: rest =>
      match parseJStringAux fuel rest with
      | .ok (tail, rem) => .ok (c :: tail, rem)
      | .error e => .error e

/-- Decimal value of a digit list. -/
def natOfDigits (ds : List Char) : Nat :=
  ds.foldl (fun n c => n * 10 + (c.toNat - 48)) 0

/-- The exact rational value of a JSON number from its parts. -/
def numValue (neg : Bool) (ip fp : List Char) (eneg : Bool) (ed : List Char) : ℚ :=
  let mant : ℚ := (natOfDigits ip : ℚ) + (natOfDigits fp : ℚ) / (10 : ℚ) ^ fp.length
  let ev : Int := if eneg then -(natOfDigits ed : Int) else (natOfDigits ed : Int)
  (if neg then -mant else mant) * (10 : ℚ) ^ ev

/-- Optional exponent part of a JSON number. -/
def parseExponent (neg : Bool) (ip fp : List Char) (cs : List Char) :
    Except String (ℚ × List Char) :=
  match cs with
  | 'e' :: r | 'E' :: r =>
    let (eneg, r1) :=
      match r with
      | '+' :: r2 => (false, r2)
      | '-' :: r2 => (true, r2)
      | _ => (false, r)
    let ed := r1.takeWhile Char.isDigit
    if ed = [] then .error "Unexpected number in JSON"
    else .ok (numValue neg ip fp eneg ed, r1.dropWhile Char.isDigit)
  | _ => .ok (numValue neg ip fp false [], cs)

/-- A JSON number: sign, integer part without leading zeros, optional
fraction, optional exponent. -/
def parseNumber (cs : List Char) : Except String (ℚ × List Char) :=
  let (neg, cs1) :=
    match cs with
    | '-' :: r => (true, r)
    | _ => (false, cs)
  let ip := cs1.takeWhile Char.isDigit
  let cs2 := cs1.dropWhile Char.isDigit
  if ip = [] then .error "Unexpected token in JSON"
  else if ip.head? = some '0' ∧ ip.length ≠ 1 then .error "Unexpected number in JSON"
  else
    match cs2 with
    | '.' :: r =>
      let fp := r.takeWhile Char.isDigit
      if fp = [] then .error "Unexpected number in JSON"
      else parseExponent neg ip fp (r.dropWhile Char.isDigit)
    | _ => parseExponent neg ip [] cs2

mutual

/-- One JSON value, leading whitespace allowed. -/
def parseValue : Nat → List Char → Except String (Json × List Char)
  | 0, _ => .error "Unexpected end of JSON input"
  | fuel + 1, cs =>
    match skipJsonWs cs with
    | [] => .error "Unexpected end of JSON input"
    | c :: rest =>
      if c = '"' then
        match parseJStringAux (rest.length + 1) rest with
        | .ok (chars, rem) => .ok (.str (String.mk chars), rem)
        | .error e => .error e
      else if c = '[' then
        match skipJsonWs rest with
        | ']' :: rem => .ok (.arr [], rem)
        | cs2 =>
          match parseElems fuel cs2 with
          | .ok (els, rem) => .ok (.arr els, rem)
          | .error e => .error e
      else if c = '\x7b' then
        match skipJsonWs rest with
        | '\x7d' :: rem => .ok (.obj [], rem)
        | cs2 =>
          match parseMembers fuel cs2 with
          | .ok (ms, rem) => .ok (.obj ms, rem)
          | .error e => .error e
      else if c = 't' then
        match rest with
        | 'r' :: 'u' :: 'e' :: rem => .ok (.bool true, rem)
        | _ => .error "Unexpected token in JSON"
      else if c = 'f' then
        match rest with
        | 'a' :: 'l' :: 's' :: 'e' :: rem => .ok (.bool false, rem)
        | _ => .error "Unexpected token in JSON"
      else if c = 'n' then
        match rest with
        | 'u' :: 'l' :: 'l' :: rem => .ok (.null, rem)
        | _ => .error "Unexpected token in JSON"
      else if c = '-' ∨ c.isDigit then
        match parseNumber (c :: rest) with
        | .ok (q, rem) => .ok (.num q, rem)
        | .error e => .error e
      else .error "Unexpected token in JSON"

/-- Elements of a non-empty JSON array, up to the closing bracket. -/
def parseElems : Nat → List Char → Except String (List Json × List Char)
  | 0, _ => .error "Unexpected end of JSON input"
  | fuel + 1, cs =>
    match parseValue fuel cs with
    | .error e => .error e
    | .ok (v, rem) =>
      match skipJsonWs rem with
      | ',' :: rem2 =>
        match parseElems fuel rem2 with
        | .ok (vs, rem3) => .ok (v :: vs, rem3)
        | .error e => .error e
      | ']' :: rem2 => .ok ([v], rem2)
      | _ => .error "Expected comma or closing bracket in JSON array"

/-- Members of a non-empty JSON object, up to the closing brace. -/
def parseMembers : Nat → List Char → Except String (List (String × Json) × List Char)
  | 0, _ => .error "Unexpected end of JSON input"
  | fuel + 1, cs =>
    match skipJsonWs cs with
    | '"' :: rest =>
      match parseJStringAux (rest.length + 1) rest with
      | .error e => .error e
      | .ok (kchars, rem) =>
        match skipJsonWs rem with
        | ':' :: rem2 =>
          match parseValue fuel rem2 with
          | .error e => .error e
          | .ok (v, rem3) =>
            match skipJsonWs rem3 with
            | ',' :: rem4 =>
              match parseMembers fuel rem4 with
              | .ok (ms, rem5) => .ok ((String.mk kchars, v) :: ms, rem5)
              | .error e => .error e
            | '\x7d' :: rem4 => .ok ([(String.mk kchars, v)], rem4)
            | _ => .error "Expected comma or closing brace in JSON object"
        | _ => .error "Expected colon in JSON object"
    | _ => .error "Expected string key in JSON object"

end

/-- The model of `JSON.parse`: one value, then only trailing whitespace. -/
def jsonParse (s : String) : Except String Json :=
  match parseValue (2 * s.length + 4) s.data with
  | .error e => .error e
  | .ok (v, rem) =>
    match skipJsonWs rem with
    | [] => .ok v
    | _ => .error "Unexpected non-whitespace character after JSON"

/-- One pass of a global regex replace that deletes every occurrence of
`pat` together with at most one directly following newline (the JavaScript
`replace(/pat\n?/g, '')` for a literal `pat`), scanning left to right over
non-overlapping matches. -/
def removeAllAux (pat : List Char) : Nat → List Char → List Char
  | 0, cs => cs
  | fuel + 1, cs =>
    match cs with
    | [] => []
    | c :: rest =>
      if pat.isPrefixOf cs then
        let dropped := cs.drop pat.length
        match dropped with
        | '\n' :: r => removeAllAux pat fuel r
        | _ => removeAllAux pat fuel dropped
      else c :: removeAllAux pat fuel rest

/-- String form of `removeAllAux`. -/
def removeAllWithNl (pat s : String) : String :=
  String.mk (removeAllAux pat.data s.data.length s.data)

/-- The whitespace class of the JavaScript regex `\s` and of
`String.prototype.trim` (restricted to the ASCII members; the non-ASCII
ones do not occur in this development). -/
def isRegexWs (c : Char) : Bool :=
  c.isWhitespace || c = '\x0b' || c = '\x0c'

/-- JavaScript `String.prototype.trim`. -/
def jsTrim (s : String) : String :=
  String.mk (((s.data.dropWhile isRegexWs).reverse.dropWhile isRegexWs).reverse)

/-- JavaScript `String.prototype.startsWith`. -/
def jsStartsWith (s pat : String) : Bool :=
  pat.data.isPrefixOf s.data

/-- The markdown-fence cleanup at the top of `parseQuestionsFromResponse`:
trim, strip  ```json  and bare  ```  fences, trim again. -/
def stripFences (responseText : String) : String :=
  let t := jsTrim responseText
  let t :=
    if jsStartsWith t "```json" then
      removeAllWithNl "```" (removeAllWithNl "```json" t)
    else if jsStartsWith t "```" then
      removeAllWithNl "```" t
    else t
  jsTrim t

/-- Is the next non-whitespace character an opening brace? -/
def braceAfterWs (l : List Char) : Bool :=
  match l.dropWhile isRegexWs with
  | '\x7b' :: _ => true
  | _ => false

/-- Leftmost suffix that starts the regex match: a `[` whose next
non-whitespace character is `{`. -/
def findStart : List Char → Option (List Char)
  | [] => none
  | c :: rest =>
    if c = '[' ∧ braceAfterWs rest then some (c :: rest)
    else findStart rest

/-- Reading a reversed string: does a `}` come next, up to whitespace? -/
def closeBraceAfterWsRev (l : List Char) : Bool :=
  match l.dropWhile isRegexWs with
  | '\x7d' :: _ => true
  | _ => false

/-- On the reversed candidate region: the suffix beginning at the final `]`
of the greedy match, i.e. the last `]` that is preceded (up to whitespace)
by a `}`. -/
def findEndRev : List Char → Option (List Char)
  | [] => none
  | c :: rest =>
    if c = ']' ∧ closeBraceAfterWsRev rest then some (c :: rest)
    else findEndRev rest

/-- The salvage regex `jsonText.match(/\[\s*\{[\s\S]*\}\s*\]/)`: the match
starts at the leftmost `[` followed (up to whitespace) by `{`, and the
greedy middle runs to the last `}` followed (up to whitespace) by `]`. -/
def arrayMatch (s : String) : Option String :=
  match findStart s.data with
  | none => none
  | some region =>
    match findEndRev region.reverse with
    | none => none
    | some revMatch => some (String.mk revMatch.reverse)

/-- `obj.field` on a parsed JSON value: `none` for a missing field or a
non-object; with a duplicated key the later entry wins, as in JavaScript. -/
def Json.getField (j : Json) (k : String) : Option Json :=
  match j with
  | .obj fields => ((fields.reverse).find? (fun p => p.1 == k)).map (fun p => p.2)
  | _ => none

/-- The string payload of a JSON string value. -/
def Json.asString : Json → Option String
  | .str s => some s
  | _ => none

/-- An array value all of whose elements are strings. -/
def Json.asStringArray : Json → Option (List String)
  | .arr els => els.mapM Json.asString
  | _ => none

/-- JavaScript `toUpperCase` (exact on the ASCII letters used here). -/
def jsToUpperCase (s : String) : String :=
  String.mk (s.data.map Char.toUpper)

/-- `charAt(0)` as a character; the null character stands for the empty
result on an empty string (which the conversion below never reaches). -/
def charAt0 (s : String) : Char :=
  s.data.headD (Char.ofNat 0)

/-- `correctAnswerLetter.charCodeAt(0) - 65` computed from the raw
correct-answer string: the code of the first character of the uppercased
string, minus 65.  No check that the result lands in `[0, 3]`. -/
def letterIndex (s : String) : Int :=
  ((charAt0 (jsToUpperCase s)).toNat : Int) - 65

/-- `item.question || ''`.  Restriction: a non-string truthy `question`
value would flow through unchanged in JavaScript; this model collapses
every non-string to `""` (no claim exercises a non-string question). -/
def questionTextOf (item : Json) : String :=
  match (item.getField "question").bind Json.asString with
  | some s => s
  | none => ""

/-- The body of `data.map((item, index) => ...)` for one element:
`new Question(index + 1, item.question || '', item.options, correctIndex)`.
Errors model the JavaScript runtime failures on malformed elements: a
missing or non-string `correctAnswer` makes `.toUpperCase()` throw a
`TypeError`; an empty one would give a `NaN` index (modelled as an error,
unreachable under every claim's hypotheses); `options` must be an array of
strings for the resulting `Question` to be meaningful. -/
def convertItem (index : Nat) (item : Json) : Except String Question :=
  match (item.getField "correctAnswer").bind Json.asString with
  | none => .error "TypeError: correctAnswer is not a string"
  | some a =>
    if a = "" then .error "NaN correct index"
    else
      match (item.getField "options").bind Json.asStringArray with
      | none => .error "TypeError: options is not a string array"
      | some opts =>
        .ok (Question.make ((index : Int) + 1) (questionTextOf item) opts
              (letterIndex a) none)

/-- `data.map` with its running index, starting at `start`; the first
failing element aborts, as a thrown exception does. -/
def convertItemsFrom (start : Nat) : List Json → Except String (List Question)
  | [] => .ok []
  | item :: rest => do
    let q ← convertItem start item
    let qs ← convertItemsFrom (start + 1) rest
    pure (q :: qs)

/-- The whole `data.map((item, index) => ...)` conversion. -/
def convertItems (items : List Json) : Except String (List Question) :=
  convertItemsFrom 0 items

/-- The steps after a successful parse: reject a non-array, convert the
elements. -/
def checkAndConvert (data : Json) : Except String (List Question) :=
  match data with
  | .arr items => convertItems items
  | _ => .error "Invalid response format: expected array of questions"

/-- `parseQuestionsFromResponse`: strip fences, `JSON.parse`, on failure log
the parse error / raw response / cleaned text and try the salvage regex,
re-parse its match, and otherwise throw the `Invalid JSON response` error
built from the original parse error.  The second component collects the
`console.error` lines. -/
def parseQuestionsFromResponse (responseText : String) :
    Except String (List Question) × List String :=
  let jsonText := stripFences responseText
  match jsonParse jsonText with
  | .ok data => (checkAndConvert data, [])
  | .error parseError =>
    let logs := ["JSON Parse Error: " ++ parseError,
                 "Raw Response: " ++ responseText,
                 "Cleaned JSON Text: " ++ jsonText]
    match arrayMatch jsonText with
    | some m =>
      match jsonParse m with
      | .ok data => (checkAndConvert data, logs)
      | .error _ =>
        (.error ("Invalid JSON response from AI. Please try again. Error: "
                  ++ parseError), logs)
    | none =>
      (.error ("Invalid JSON response from AI. Please try again. Error: "
                ++ parseError), logs)

/-- `ExamService.completeExam()` (src, ExamService section of AIService.ts):
throws `No exam to complete` without a current exam, throws
`Not all questions have been answered` when `canSubmit()` is false, else
calls `end()` on the exam and builds the result from it.  The returned pair
is the ended exam together with the `ExamResult`. -/
def completeExam (currentExam : Option Exam) (now : Millis) :
    Except String (Exam × ExamResult) :=
  match currentExam with
  | none => .error "No exam to complete"
  | some e =>
    if e.canSubmit then
      let ended := e.endExam now
      .ok (ended, ExamResult.make ended now)
    else
      .error "Not all questions have been answered"

/-! Concrete data used by the witnesses. -/

/-- A question with a recorded answer, for the C5 witness. -/
def sampleQ : Question :=
  ⟨1, "What is 2 + 2?", ["A) 3", "B) 4", "C) 5", "D) 6"], 1, some "easy", some 1⟩

/-- An exam with three questions (two answered, one unanswered) and both
timestamps set, for the C5 witness. -/
def sampleE : Exam :=
  ⟨"Sample",
   [⟨1, "Q1", ["A) x", "B) y"], 0, none, some 0⟩,
    ⟨2, "Q2", ["A) x", "B) y"], 1, none, some 1⟩,
    ⟨3, "Q3", ["A) x", "B) y"], 0, none, none⟩],
   some 30, some 1700000000000, some 1700000600000⟩

/-- A fenced AI reply holding a two-element JSON array with correct-answer
letters `B` and `D`; the first element also carries an `id` of 7, which the
parser must ignore. -/
def fencedResponse : String :=
  "```json\n[\n  \x7b \"id\": 7, \"question\": \"Q1?\", \"options\": [\"A) a\", \"B) b\", \"C) c\", \"D) d\"], \"correctAnswer\": \"B\" \x7d,\n  \x7b \"question\": \"Q2?\", \"options\": [\"A) e\", \"B) f\", \"C) g\", \"D) h\"], \"correctAnswer\": \"D\" \x7d\n]\n```"

/-- An AI reply that is prose with no JSON array at all. -/
def proseResponse : String :=
  "I am unable to generate questions for this document."

/-! Theorems for the claims. -/

theorem except_ok_bind {α β : Type} (a : α) (f : α → Except String β) :
    (Except.ok a >>= f : Except String β) = f a := rfl

theorem question_roundtrip (q : Question) (h : q.answerInRangeB = true) :
    Question.fromJSON (Question.toJSON q) = .ok q := by
  obtain ⟨qid, qtext, qopts, qci, qdiff, qua⟩ := q
  cases qua with
  | none => rfl
  | some i =>
    have h' : 0 ≤ i ∧ i < (qopts.length : Int) := by
      simpa [Question.answerInRangeB] using h
    simp [Question.fromJSON, Question.toJSON, Question.make, Question.setUserAnswer, h']

theorem questions_roundtrip (l : List Question)
    (h : ∀ r ∈ l, r.answerInRangeB = true) :
    (l.map Question.toJSON).mapM Question.fromJSON = .ok l := by
  induction l with
  | nil => rfl
  | cons a t ih =>
    have ha := h a (List.mem_cons_self a t)
    have ht := ih fun r hr => h r (List.mem_cons_of_mem a hr)
    rw [List.map_cons, List.mapM_cons, question_roundtrip a ha, except_ok_bind, ht]
    rfl

theorem exam_roundtrip (e : Exam) (h : ∀ r ∈ e.questions, r.answerInRangeB = true) :
    Exam.fromJSON (Exam.toJSON e) = .ok e := by
  obtain ⟨t, qs, tl, st, et⟩ := e
  have hq := questions_roundtrip qs h
  unfold Exam.fromJSON Exam.toJSON
  rw [show (⟨t, qs.map Question.toJSON, tl, st, et⟩ : ExamJSON).questions
        = qs.map Question.toJSON from rfl]
  rw [hq]
  rfl

/-- C1: for every `ExamResult` the letter grade is the deterministic pure
function `calculateGrade` of the stored percentage, with the fixed half-open
cutoffs `≥90 → A`, `≥80 → B`, `≥70 → C`, `≥60 → D`, else `F`; in particular
a percentage of exactly `90` is an A and `89.9` is a B. -/
theorem C1_grade_is_pure_threshold_function :
    (∀ (e : Exam) (now : Millis),
       (ExamResult.make e now).grade = calculateGrade (ExamResult.make e now).percentage)
    ∧ (∀ p : ℚ,
        (calculateGrade (some p) = "A" ↔ 90 ≤ p)
        ∧ (calculateGrade (some p) = "B" ↔ 80 ≤ p ∧ p < 90)
        ∧ (calculateGrade (some p) = "C" ↔ 70 ≤ p ∧ p < 80)
        ∧ (calculateGrade (some p) = "D" ↔ 60 ≤ p ∧ p < 70)
        ∧ (calculateGrade (some p) = "F" ↔ p < 60))
    ∧ calculateGrade (some 90) = "A"
    ∧ calculateGrade (some (899 / 10)) = "B" := by
  have hAB : ("A" : String) ≠ "B" := by decide
  have hAC : ("A" : String) ≠ "C" := by decide
  have hAD : ("A" : String) ≠ "D" := by decide
  have hAF : ("A" : String) ≠ "F" := by decide
  have hBC : ("B" : String) ≠ "C" := by decide
  have hBD : ("B" : String) ≠ "D" := by decide
  have hBF : ("B" : String) ≠ "F" := by decide
  have hCD : ("C" : String) ≠ "D" := by decide
  have hCF : ("C" : String) ≠ "F" := by decide
  have hDF : ("D" : String) ≠ "F" := by decide
  have hg : ∀ q : ℚ, calculateGrade (some q) =
      if 90 ≤ q then "A" else if 80 ≤ q then "B" else if 70 ≤ q then "C"
      else if 60 ≤ q then "D" else "F" := fun _ => rfl
  refine ⟨fun e now => rfl, fun p => ?_, ?_, ?_⟩
  · rw [hg]
    split_ifs with h1 h2 h3 h4 <;>
      refine ⟨?_, ?_, ?_, ?_, ?_⟩ <;>
      simp_all <;>
      try linarith
    all_goals intro hh
    all_goals linarith
  · rw [hg]
    norm_num
  · rw [hg]
    norm_num

/-- C4: `setUserAnswer` succeeds exactly when the index lies in
`[0, options.length)`, failing with the `Invalid answer index` error
otherwise (so the previously recorded answer survives unchanged), and on
success it stores the index, makes `isAnswered()` true and touches no other
field. -/
theorem C4_setUserAnswer_validation :
    ∀ (q : Question) (i : Int),
      ((∃ q', q.setUserAnswer i = .ok q') ↔ 0 ≤ i ∧ i < q.options.length)
      ∧ (¬(0 ≤ i ∧ i < q.options.length) →
          q.setUserAnswer i = .error "Invalid answer index")
      ∧ (∀ q', q.setUserAnswer i = .ok q' →
          q'.isAnswered = true ∧ q'.userAnswer = some i
          ∧ q'.id = q.id ∧ q'.text = q.text ∧ q'.options = q.options
          ∧ q'.correctIndex = q.correctIndex ∧ q'.difficulty = q.difficulty) := by
  intro q i
  by_cases h : 0 ≤ i ∧ i < q.options.length
  · have hok : q.setUserAnswer i = .ok { q with userAnswer := some i } := by
      unfold Question.setUserAnswer
      rw [if_pos h]
    refine ⟨⟨fun _ => h, fun _ => ⟨_, hok⟩⟩, fun hc => absurd h hc, ?_⟩
    intro q' hq'
    rw [hok] at hq'
    cases hq'
    exact ⟨rfl, rfl, rfl, rfl, rfl, rfl, rfl⟩
  · have herr : q.setUserAnswer i = .error "Invalid answer index" := by
      unfold Question.setUserAnswer
      rw [if_neg h]
    refine ⟨⟨?_, fun hh => absurd hh h⟩, fun _ => herr, ?_⟩
    · rintro ⟨q', hq'⟩
      rw [herr] at hq'
      cases hq'
    · intro q' hq'
      rw [herr] at hq'
      cases hq'

/-- C8: `completeExam` fails with the no-active-exam error when no exam is
current, fails with the incomplete-exam error when `canSubmit()` is false,
and otherwise stamps the end time via `end()` and returns an `ExamResult`
whose percentage is `100 × correct / total` (the total is positive whenever
that quotient is meaningful). -/
theorem C8_completeExam_guards_and_percentage :
    ∀ (now : Millis) (e : Exam),
      completeExam none now = .error "No exam to complete"
      ∧ (e.canSubmit = false →
          completeExam (some e) now = .error "Not all questions have been answered")
      ∧ (e.canSubmit = true → 0 < e.totalQuestions →
          completeExam (some e) now = .ok (e.endExam now, ExamResult.make (e.endExam now) now)
          ∧ (e.endExam now).endTime = some now
          ∧ (ExamResult.make (e.endExam now) now).percentage =
              some (100 * (calculateCorrectCount e : ℚ) / (e.totalQuestions : ℚ))) := by
  intro now e
  have hrun : ∀ ex : Exam, completeExam (some ex) now =
      if ex.canSubmit then .ok (ex.endExam now, ExamResult.make (ex.endExam now) now)
      else .error "Not all questions have been answered" := fun _ => rfl
  refine ⟨rfl, fun hno => ?_, fun hyes hpos => ?_⟩
  · rw [hrun, hno]
    rfl
  · have hsame : calculateCorrectCount (e.endExam now) = calculateCorrectCount e := rfl
    have htot : (e.endExam now).totalQuestions = e.totalQuestions := rfl
    refine ⟨by rw [hrun, hyes]; rfl, rfl, ?_⟩
    have hperc : (ExamResult.make (e.endExam now) now).percentage =
        if (e.endExam now).totalQuestions = 0 then none
        else some (((calculateCorrectCount (e.endExam now) : ℚ) /
                    ((e.endExam now).totalQuestions : ℚ)) * 100) := rfl
    rw [hperc, htot, hsame, if_neg (Nat.pos_iff_ne_zero.mp hpos)]
    have : ((calculateCorrectCount e : ℚ) / (e.totalQuestions : ℚ)) * 100 =
        100 * (calculateCorrectCount e : ℚ) / (e.totalQuestions : ℚ) := by
      ring
    rw [this]

/-- C9: an exam with zero questions satisfies `canSubmit()` (zero answered
equals zero total), so `completeExam` does not reject it and goes on to
construct an `ExamResult` for it. -/
theorem C9_empty_exam_passes_submit_guard :
    ∀ (e : Exam) (now : Millis), e.questions = [] →
      e.canSubmit = true
      ∧ completeExam (some e) now = .ok (e.endExam now, ExamResult.make (e.endExam now) now) := by
  intro e now h
  have hsub : e.canSubmit = true := by
    unfold Exam.canSubmit Exam.getAnsweredCount Exam.totalQuestions
    rw [h]
    rfl
  refine ⟨hsub, ?_⟩
  have hrun : completeExam (some e) now =
      if e.canSubmit then .ok (e.endExam now, ExamResult.make (e.endExam now) now)
      else .error "Not all questions have been answered" := rfl
  rw [hrun, hsub]
  rfl

/-- C2 (code point): on a zero-question exam, `getProgressPercentage()`
computes `(0 / 0) * 100`, i.e. `NaN` (`none`) — not the `0` the claim
states.  For any exam with questions it is the claimed
`100 × answeredCount / totalQuestions`. -/
theorem C2_zero_question_progress_is_nan_not_zero :
    Exam.getProgressPercentage (Exam.make "Empty" [] none) = none
    ∧ ∀ e : Exam, 0 < e.totalQuestions →
        e.getProgressPercentage =
          some (100 * (e.getAnsweredCount : ℚ) / (e.totalQuestions : ℚ)) := by
  refine ⟨rfl, fun e hpos => ?_⟩
  unfold Exam.getProgressPercentage
  rw [if_neg (Nat.pos_iff_ne_zero.mp hpos)]
  have : ((e.getAnsweredCount : ℚ) / (e.totalQuestions : ℚ)) * 100 =
      100 * (e.getAnsweredCount : ℚ) / (e.totalQuestions : ℚ) := by
    ring
  rw [this]

/-- C3 (code point): the `ExamResult` constructor has no zero-question
guard: on an empty exam it completes without an error and stores a `NaN`
percentage (`none`), which then grades as `"F"`. -/
theorem C3_zero_question_result_completes_with_nan :
    ExamResult.make (Exam.make "Empty" [] none) 0 =
      { exam := Exam.make "Empty" [] none, score := 0, percentage := none,
        grade := "F", correctCount := 0, incorrectCount := 0, completionTime := 0 }
    ∧ (ExamResult.make (Exam.make "Empty" [] none) 0).percentage = none
    ∧ (ExamResult.make (Exam.make "Empty" [] none) 0).grade = "F" :=
  ⟨rfl, rfl, rfl⟩

/-- C5: serialize → deserialize round-trips a `Question` (also one with a
recorded answer) and an `Exam` exactly — the timestamps are carried as
their exact millisecond values, so timestamp equality holds in particular
to the second — and `Question.fromJSON` re-applies the `setUserAnswer`
validation, so a corrupt stored answer index fails with the same
`Invalid answer index` error as the live call on the freshly constructed
question. -/
theorem C5_serialization_roundtrip :
    ∀ (q : Question) (e : Exam),
      q.answerInRangeB = true →
      (∀ r ∈ e.questions, r.answerInRangeB = true) →
      Question.fromJSON (Question.toJSON q) = .ok q
      ∧ Exam.fromJSON (Exam.toJSON e) = .ok e
      ∧ (Exam.toJSON e).startTime = e.startTime
      ∧ (Exam.toJSON e).endTime = e.endTime
      ∧ (∀ (d : QuestionJSON) (i : Int), d.userAnswer = some i →
          ¬(0 ≤ i ∧ i < d.options.length) →
          Question.fromJSON d = .error "Invalid answer index"
          ∧ (Question.make d.id d.text d.options d.correctIndex d.difficulty).setUserAnswer i
              = .error "Invalid answer index") := by
  intro q e hq he
  refine ⟨question_roundtrip q hq, exam_roundtrip e he, rfl, rfl, ?_⟩
  intro d i hui hbad
  have herr : (Question.make d.id d.text d.options d.correctIndex d.difficulty).setUserAnswer i
      = .error "Invalid answer index" := by
    unfold Question.setUserAnswer
    exact if_neg hbad
  refine ⟨?_, herr⟩
  unfold Question.fromJSON
  rw [hui]
  exact herr

/-- Witness for C5 at the sample question and exam. -/
theorem C5_serialization_roundtrip_witness :
    Question.fromJSON (Question.toJSON sampleQ) = .ok sampleQ
    ∧ Exam.fromJSON (Exam.toJSON sampleE) = .ok sampleE := by
  have h := C5_serialization_roundtrip sampleQ sampleE (by decide) (by decide)
  exact ⟨h.1, h.2.1⟩

/-- C10: the parser maps the correct-answer letter to
`charCodeAt(0) - 65` of the uppercased string with no range validation, the
`Question` constructor accepts the result without error, and
`getCorrectAnswer()` on a question whose `correctIndex` is past the end of
`options` yields the out-of-bounds `undefined` value (`none`) instead of
failing. -/
theorem C10_unvalidated_letter_and_out_of_bounds_read :
    ∀ (index : Nat) (item : Json) (a : String) (opts : List String),
      (item.getField "correctAnswer").bind Json.asString = some a →
      a ≠ "" →
      (item.getField "options").bind Json.asStringArray = some opts →
      convertItem index item =
          .ok (Question.make ((index : Int) + 1) (questionTextOf item) opts
                (letterIndex a) none)
      ∧ letterIndex a = ((charAt0 (jsToUpperCase a)).toNat : Int) - 65
      ∧ (∀ q : Question, (q.options.length : Int) ≤ q.correctIndex →
          q.getCorrectAnswer = none) := by
  intro index item a opts ha hne hopts
  refine ⟨?_, rfl, ?_⟩
  · unfold convertItem
    rw [ha, hopts]
    simp [hne]
  · intro q hq
    unfold Question.getCorrectAnswer jsIndex
    have h0 : (0 : Int) ≤ q.correctIndex :=
      le_trans (Int.ofNat_nonneg q.options.length) hq
    rw [if_pos h0]
    apply List.get?_eq_none.mpr
    omega

/-- Witness for C10: a 4-option item whose correct-answer letter is `"E"`
converts without error to a question with the out-of-range `correctIndex`
4, on which `getCorrectAnswer()` is `undefined`. -/
theorem C10_unvalidated_letter_and_out_of_bounds_read_witness :
    convertItem 0 (Json.obj [("question", .str "QE?"),
        ("options", .arr [.str "A) a", .str "B) b", .str "C) c", .str "D) d"]),
        ("correctAnswer", .str "E")]) =
      .ok (Question.make 1 "QE?" ["A) a", "B) b", "C) c", "D) d"] 4 none)
    ∧ Question.getCorrectAnswer
        (Question.make 1 "QE?" ["A) a", "B) b", "C) c", "D) d"] 4 none) = none := by
  have h := C10_unvalidated_letter_and_out_of_bounds_read 0
    (Json.obj [("question", .str "QE?"),
        ("options", .arr [.str "A) a", .str "B) b", .str "C) c", .str "D) d"]),
        ("correctAnswer", .str "E")])
    "E" ["A) a", "B) b", "C) c", "D) d"] rfl (by decide) rfl
  exact ⟨h.1, h.2.2 _ (by decide)⟩

theorem except_error_bind {α β : Type} (e : String) (f : α → Except String β) :
    (Except.error e >>= f : Except String β) = .error e := rfl

theorem convertItem_ok (index : Nat) (item : Json) (q : Question)
    (h : convertItem index item = .ok q) :
    ∃ a opts,
      (item.getField "correctAnswer").bind Json.asString = some a ∧ a ≠ ""
      ∧ (item.getField "options").bind Json.asStringArray = some opts
      ∧ q = Question.make ((index : Int) + 1) (questionTextOf item) opts
              (letterIndex a) none := by
  unfold convertItem at h
  split at h
  · exact Except.noConfusion h
  next a hca =>
    split at h
    · exact Except.noConfusion h
    next hne =>
      split at h
      · exact Except.noConfusion h
      next opts hop =>
        injection h with h
        exact ⟨a, opts, hca, hne, hop, h.symm⟩

theorem convertItemsFrom_ids (items : List Json) :
    ∀ (n : Nat) (qs : List Question),
      convertItemsFrom n items = .ok qs →
      qs.length = items.length
      ∧ ∀ k (hk : k < qs.length), (qs.get ⟨k, hk⟩).id = ((n + k : Nat) : Int) + 1 := by
  induction items with
  | nil =>
    intro n qs h
    injection h with h
    subst h
    exact ⟨rfl, fun k hk => absurd hk (by simp)⟩
  | cons item rest ih =>
    intro n qs h
    unfold convertItemsFrom at h
    cases hq : convertItem n item with
    | error e => rw [hq, except_error_bind] at h; exact Except.noConfusion h
    | ok q =>
      rw [hq, except_ok_bind] at h
      cases hrest : convertItemsFrom (n + 1) rest with
      | error e => rw [hrest, except_error_bind] at h; exact Except.noConfusion h
      | ok qs' =>
        rw [hrest, except_ok_bind] at h
        have h' : Except.ok (ε := String) (q :: qs') = .ok qs := h
        injection h' with h'
        subst h'
        obtain ⟨hlen, hids⟩ := ih (n + 1) qs' hrest
        obtain ⟨a, opts, -, -, -, hqe⟩ := convertItem_ok n item q hq
        refine ⟨by simpa using hlen, ?_⟩
        intro k hk
        cases k with
        | zero => subst hqe; simp [Question.make]
        | succ k =>
          have hk' : k < qs'.length := by simpa using hk
          have := hids k hk'
          simpa [Nat.add_assoc, Nat.add_comm 1 k] using this

set_option maxRecDepth 400000 in
/-- C6: whenever the fenced-stripped response is a valid JSON array, parsing
is element conversion; conversion assigns each question the sequential
1-based identifier `index + 1` (never the AI-supplied `id`) and maps the
first character of the uppercased correct-answer letter `A`/`B`/`C`/`D` to
`correctIndex` 0/1/2/3; on the concrete fenced two-element reply with
letters `B` and `D` (and a decoy `id` of 7) this yields questions with
identifiers 1 and 2 and `correctIndex` 1 and 3. -/
theorem C6_letter_mapping_and_sequential_ids :
    (∀ (s : String) (items : List Json),
        jsonParse (stripFences s) = .ok (.arr items) →
        (parseQuestionsFromResponse s).1 = convertItems items)
    ∧ (∀ (index : Nat) (item : Json) (q : Question),
        convertItem index item = .ok q →
        q.id = (index : Int) + 1
        ∧ ∀ a : String,
            (item.getField "correctAnswer").bind Json.asString = some a →
            ((charAt0 (jsToUpperCase a) = 'A' → q.correctIndex = 0)
             ∧ (charAt0 (jsToUpperCase a) = 'B' → q.correctIndex = 1)
             ∧ (charAt0 (jsToUpperCase a) = 'C' → q.correctIndex = 2)
             ∧ (charAt0 (jsToUpperCase a) = 'D' → q.correctIndex = 3)))
    ∧ (∀ (items : List Json) (qs : List Question),
        convertItems items = .ok qs →
        qs.length = items.length
        ∧ ∀ k (hk : k < qs.length), (qs.get ⟨k, hk⟩).id = (k : Int) + 1)
    ∧ (parseQuestionsFromResponse fencedResponse).1 =
        .ok [Question.make 1 "Q1?" ["A) a", "B) b", "C) c", "D) d"] 1 none,
             Question.make 2 "Q2?" ["A) e", "B) f", "C) g", "D) h"] 3 none] := by
  refine ⟨?_, ?_, ?_, ?_⟩
  · intro s items hp
    simp only [parseQuestionsFromResponse, hp]
    rfl
  · intro index item q h
    obtain ⟨a, opts, hca, hne, hop, hqe⟩ := convertItem_ok index item q h
    refine ⟨by subst hqe; rfl, ?_⟩
    intro a' ha'
    rw [hca] at ha'
    injection ha' with ha'
    subst ha'
    have hci : q.correctIndex = letterIndex a := by subst hqe; rfl
    unfold letterIndex at hci
    refine ⟨fun hu => ?_, fun hu => ?_, fun hu => ?_, fun hu => ?_⟩ <;>
      rw [hci, hu] <;> decide
  · intro items qs h
    have := convertItemsFrom_ids items 0 qs h
    simpa using this
  · rfl

/-- C7: when the fenced-stripped response fails to parse and the salvage
regex finds no `[...]` block, the parser throws the `Invalid JSON response`
error built from the parse error and has already logged the parse error,
the raw response and the cleaned text; when the salvage regex does find a
block that re-parses as an array, parsing proceeds with that array instead
of failing. -/
theorem C7_malformed_response_diagnostics :
    ∀ (s msg : String),
      jsonParse (stripFences s) = .error msg →
      (arrayMatch (stripFences s) = none →
        parseQuestionsFromResponse s =
          (.error ("Invalid JSON response from AI. Please try again. Error: " ++ msg),
           ["JSON Parse Error: " ++ msg,
            "Raw Response: " ++ s,
            "Cleaned JSON Text: " ++ stripFences s]))
      ∧ (∀ (m : String) (items : List Json),
          arrayMatch (stripFences s) = some m →
          jsonParse m = .ok (.arr items) →
          (parseQuestionsFromResponse s).1 = convertItems items) := by
  intro s msg hp
  constructor
  · intro hnom
    simp only [parseQuestionsFromResponse, hp, hnom]
  · intro m items hm hpm
    simp only [parseQuestionsFromResponse, hp, hm, hpm]
    rfl

set_option maxRecDepth 200000 in
/-- Witness for C7 at the concrete prose reply. -/
theorem C7_malformed_response_diagnostics_witness :
    parseQuestionsFromResponse proseResponse =
      (.error ("Invalid JSON response from AI. Please try again. Error: "
                ++ "Unexpected token in JSON"),
       ["JSON Parse Error: " ++ "Unexpected token in JSON",
        "Raw Response: " ++ proseResponse,
        "Cleaned JSON Text: " ++ stripFences proseResponse]) :=
  (C7_malformed_response_diagnostics proseResponse "Unexpected token in JSON" rfl).1 rfl

/-- Witness for C9 at a concrete zero-question exam. -/
theorem C9_empty_exam_passes_submit_guard_witness :
    (Exam.make "Empty" [] none).canSubmit = true
    ∧ completeExam (some (Exam.make "Empty" [] none)) 5 =
        .ok ((Exam.make "Empty" [] none).endExam 5,
             ExamResult.make ((Exam.make "Empty" [] none).endExam 5) 5) :=
  C9_empty_exam_passes_submit_guard (Exam.make "Empty" [] none) 5 rfl

end SprintCode
